import Mathlib

/-
  Verification development for the FAST-OAD configuration-driven graph
  assembler and variable-resolution subsystem.

  Shallow embedding of:
  - src/fastoad/openmdao/connections_utils.py (get_unconnected_inputs)
  - src/fastoad/io/configuration/configuration.py
      (FASTOADProblemConfigurator._build_model, _parse_problem_table,
       _add_constraints, _add_design_vars, _om_eval)
  - src/fastoad/openmdao/variables.py (Variable, VariableList)

  Python floats are modelled as either NaN or a rational number; numpy
  values as scalars or one-dimensional arrays; Python dicts as association
  lists (or total functions where the underlying dict is guaranteed total,
  as with OpenMDAO's _var_abs2meta); raised exceptions as an Except monad.
-/

namespace FastOad

deriving instance DecidableEq for Except

/-- A Python float: either the NaN sentinel or a finite number (modelled as a
rational). -/
inductive PyFloat where
  | nan : PyFloat
  | num : Rat → PyFloat
deriving DecidableEq, Repr

/-- Model of numpy.isnan on one element. -/
def PyFloat.isNaN : PyFloat → Bool
  | .nan => true
  | .num _ => false

/-- A numpy value: a scalar or a one-dimensional array. -/
inductive NpValue where
  | scalar : PyFloat → NpValue
  | array : List PyFloat → NpValue
deriving DecidableEq, Repr

/-- Model of np.all(np.isnan(value)): true iff every element is NaN
(vacuously true on an empty array, as in numpy). -/
def npAllIsNaN : NpValue → Bool
  | .scalar f => f.isNaN
  | .array l => l.all PyFloat.isNaN

/-- The Python exceptions raised by the embedded code. The constructor
badInstruction models FASTConfigurationBadOpenMDAOInstructionError.
Modelled from the spec: the exception classes of
fastoad.io.configuration.exceptions are not under src/ (only their callers
are); per the spec the error "carries the dotted key path from root to
failure and the original cause; path segments accumulate as the error
propagates outward through each recursion level (innermost first)". -/
inductive PyErr where
  | noSetupError (msg : String)
  | valueError (msg : String)
  | typeError (msg : String)
  | zeroDivisionError
  | nameError (name : String)
  | syntaxError
  | attributeError (name : String)
  | keyError (key : String)
  | badInstruction (cause : PyErr) (keys : List String)
deriving DecidableEq, Repr

/-! ## connections_utils.get_unconnected_inputs

The function inspects an OpenMDAO Problem after setup. The parts of the
problem it reads are:
- `model._var_allprocs_prom2abs_list['input']`: promoted input name to list
  of absolute input names (`prom2abs`); its non-emptiness (the whole
  `_var_allprocs_prom2abs_list` dict) is the "setup has been run" test;
- `model._conn_global_abs_in2out`: absolute input name to the absolute name
  of its source output (`connexions`);
- `model._var_abs2meta[abs_name]['value']`: declared default value of each
  variable. In OpenMDAO every declared variable has metadata, so this dict
  is modelled as a total function.
-/

structure OMModel where
  /-- Setup has been run, i.e. _var_allprocs_prom2abs_list is non-empty. -/
  setup_done : Bool
  /-- Promoted input name -> absolute names (insertion-ordered dict). -/
  prom2abs : List (String × List String)
  /-- _conn_global_abs_in2out: absolute input -> absolute source output. -/
  connexions : List (String × String)
  /-- _var_abs2meta[abs_name]["value"]. -/
  abs2meta_value : String → NpValue

/-- Model of `a not in connexions or len(connexions[a]) == 0`. -/
def isUnconnected (m : OMModel) (a : String) : Bool :=
  match m.connexions.lookup a with
  | none => true
  | some s => s.length == 0

/-- The inner `for abs_name in abs_names` loop of get_unconnected_inputs:
appends each name to the mandatory accumulator when its default value is
all-NaN, else to the optional accumulator. -/
def classifyNames (m : OMModel) (absNames : List String)
    (acc : List String × List String) : List String × List String :=
  absNames.foldl
    (fun acc a =>
      if npAllIsNaN (m.abs2meta_value a) then (acc.1 ++ [a], acc.2)
      else (acc.1, acc.2 ++ [a]))
    acc

/-- The main loop of get_unconnected_inputs: for each promoted-name group,
if some of its absolute names are unconnected, classify the names of the
group (note: the source iterates `abs_names`, not `unconnected`). -/
def get_unconnected_inputs_core (m : OMModel) : List String × List String :=
  m.prom2abs.foldl
    (fun acc p =>
      let unconnected := p.2.filter (fun a => isUnconnected m a)
      if unconnected.isEmpty then acc else classifyNames m p.2 acc)
    ([], [])

/-- get_unconnected_inputs: raises NoSetupError when setup has not been run,
else returns (mandatory_unconnected, optional_unconnected). -/
def get_unconnected_inputs (m : OMModel) :
    Except PyErr (List String × List String) :=
  if m.setup_done then .ok (get_unconnected_inputs_core m)
  else .error (.noSetupError
    "Analysis of unconnected inputs cannot be done without prior setup.")

/-! ## configuration.py: restricted expression evaluator `_om_eval`

`_om_eval` evaluates a string with Python's `eval`, with globals
`{"__builtins__": {}}` and locals `{"om": om}`, after rejecting any string
containing a double underscore. The Python expression language is embedded
for the forms exercised by the configuration files in this subsystem:
numeric literals, bare-name lookups, and division chains. -/

/-- A Python runtime value produced by the restricted evaluator. -/
inductive PyVal where
  | num : Rat → PyVal
  | omModule : PyVal
deriving DecidableEq, Repr

/-- An embedded Python expression: numeric literal, name, or division.
Names are kept as character lists. -/
inductive PyExpr where
  | lit : Rat → PyExpr
  | name : List Char → PyExpr
  | div : PyExpr → PyExpr → PyExpr
deriving DecidableEq, Repr

/-- Splits a character list at every occurrence of the separator. -/
def splitOnChar (sep : Char) : List Char → List (List Char)
  | [] => [[]]
  | c :: rest =>
    if c == sep then [] :: splitOnChar sep rest
    else
      match splitOnChar sep rest with
      | g :: gs => (c :: g) :: gs
      | [] => [[c]]

/-- Parses a nonempty all-digit character list as a natural number. -/
def parseNatDigits (cs : List Char) : Option Nat :=
  if cs.isEmpty then none
  else if cs.all Char.isDigit then
    some (cs.foldl (fun n c => 10 * n + (c.toNat - 48)) 0)
  else none

/-- Parses an integer or decimal literal ("1", "1.0") as a rational:
a decimal i.f denotes (i * 10^len(f) + f) / 10^len(f). -/
def parseNumberLit (cs : List Char) : Option Rat :=
  match splitOnChar '.' cs with
  | [i] => (parseNatDigits i).map (fun n => (n : Rat))
  | [i, f] => do
      let a ← parseNatDigits i
      let b ← parseNatDigits f
      pure (mkRat (Int.ofNat (a * 10 ^ f.length + b)) (10 ^ f.length))
  | _ => none

def isIdentChar (c : Char) : Bool :=
  c.isAlphanum || c == '_'

/-- Parses an atom: a numeric literal or an identifier. -/
def parseAtomExpr (cs : List Char) : Option PyExpr :=
  match parseNumberLit cs with
  | some q => some (.lit q)
  | none =>
    match cs with
    | [] => none
    | c :: rest =>
      if (c.isAlpha || c == '_') && rest.all isIdentChar then
        some (.name cs)
      else none

/-- Parses a division chain `atom ('/' atom)*`, left-associated. -/
def parsePyExpr (s : String) : Option PyExpr :=
  match (splitOnChar '/' s.toList).mapM parseAtomExpr with
  | some (e :: es) => some (es.foldl PyExpr.div e)
  | _ => none

/-- Evaluates an embedded expression in an environment binding names to
values; an unbound name raises NameError, division by zero raises
ZeroDivisionError, division of non-numbers raises TypeError. -/
def evalPyExpr (env : List (List Char × PyVal)) : PyExpr → Except PyErr PyVal
  | .lit q => .ok (.num q)
  | .name n =>
    match env.lookup n with
    | some v => .ok v
    | none => .error (.nameError (String.mk n))
  | .div a b => do
    let x ← evalPyExpr env a
    let y ← evalPyExpr env b
    match x, y with
    | .num p, .num q =>
      if q = 0 then .error .zeroDivisionError else .ok (.num (p / q))
    | _, _ => .error (.typeError "unsupported operand type(s) for /")

/-- Model of Python `eval(s, globals, locals)` where globals carries no
usable binding (`{"__builtins__": {}}`): names resolve against `env` only,
so no builtin is reachable. An unparsable string raises SyntaxError. -/
def pyEval (s : String) (env : List (List Char × PyVal)) : Except PyErr PyVal :=
  match parsePyExpr s with
  | none => .error .syntaxError
  | some e => evalPyExpr env e

/-- Model of Python's substring test `needle in hay` on strings, as
character lists. -/
def hasSubstring (needle : List Char) : List Char → Bool
  | [] => needle.isEmpty
  | c :: rest => List.isPrefixOf needle (c :: rest) || hasSubstring needle rest

/-- Model of `_om_eval`: rejects any string containing a double underscore
with ValueError before evaluating; otherwise evaluates with only `om`
bound. -/
def om_eval (s : String) : Except PyErr PyVal :=
  if hasSubstring "__".toList s.toList then
    .error (.valueError
      "No double underscore allowed in evaluated string for security reasons")
  else pyEval s [("om".toList, .omModule)]

/-! ## configuration.py: model assembly

The declarative model table is a TOML table. `_parse_problem_table` walks
it, distinguishing sub-tables (components) from scalar values (attribute
assignments evaluated by `_om_eval`). The Component Registry is an external
collaborator: `OpenMDAOSystemRegistry.get_system(identifier, options)` is
modelled as an opaque successful lookup recording the identifier and the
options it was (or was not) passed. -/

/-- A TOML value as seen by the configurator: a nested table, a string, or
an integer (the scalar kinds exercised by the embedded functions). -/
inductive Toml where
  | table : List (String × Toml) → Toml
  | str : String → Toml
  | int : Int → Toml

/-- A node of the assembled OpenMDAO model: a registry-provided system
(recording the identifier and, when passed, the options), or a group. -/
inductive Component where
  | system (identifier : Toml) (options : Option (List (String × Toml)))
  | group (subsystems : List (String × Component))
      (attrs : List (String × PyVal))

/-- An om.Group under construction: named subsystems added by
`add_subsystem` (in order), and attributes set by `setattr`. -/
structure OMGroup where
  subsystems : List (String × Component)
  attrs : List (String × PyVal)

/-- Model of `setattr(group, key, v)`: replace the attribute in place when
present, else add it. -/
def OMGroup.setAttr (g : OMGroup) (key : String) (v : PyVal) : OMGroup :=
  if (g.attrs.lookup key).isSome then
    { g with attrs := g.attrs.map (fun e => if e.1 == key then (key, v) else e) }
  else { g with attrs := g.attrs ++ [(key, v)] }

/-- Model of `group.add_subsystem(key, comp, promotes=["*"])`. -/
def OMGroup.addSubsystem (g : OMGroup) (key : String) (c : Component) :
    OMGroup :=
  { g with subsystems := g.subsystems ++ [(key, c)] }

/-- Modelled from the spec: constructor of
FASTConfigurationBadOpenMDAOInstructionError (the class lives in
fastoad.io.configuration.exceptions, which is not under src/). Per the
spec it "carries the dotted key path from root to failure and the original
cause; path segments accumulate as the error propagates outward through
each recursion level (innermost first)": wrapping an already-wrapped error
prepends the new key to its path, wrapping any other error starts the path. -/
def mkBadInstruction (err : PyErr) (key : String) : PyErr :=
  match err with
  | .badInstruction cause keys => .badInstruction cause (key :: keys)
  | e => .badInstruction e [key]

/-- Model of `_om_eval(value)` applied to a raw TOML value: `"__" in value`
raises TypeError when the value is not a string. -/
def om_eval_arg : Toml → Except PyErr PyVal
  | .str s => om_eval s
  | .int _ => .error (.typeError "argument of type int is not iterable")
  | .table _ => .error (.typeError "argument of type dict is not iterable")

/-- Model of `_parse_problem_table(group, table)`: for each entry, a
sub-table containing the `id` key becomes a registry leaf (options = the
remaining keys, `id` popped); a sub-table without `id` becomes a group
parsed recursively, with a BadOpenMDAOInstruction error from the recursion
re-raised wrapped with the entry's key; any other value is an attribute
assignment whose evaluation failure is wrapped with the entry's key. -/
def parseProblemTable (g : OMGroup) :
    List (String × Toml) → Except PyErr OMGroup
  | [] => .ok g
  | (key, value) :: rest =>
    match value with
    | .table sub =>
      match sub.lookup "id" with
      | some identifier =>
        let options := sub.eraseP (fun e => e.1 == "id")
        parseProblemTable
          (g.addSubsystem key (.system identifier (some options))) rest
      | none =>
        match parseProblemTable ⟨[], []⟩ sub with
        | .error (.badInstruction cause keys) =>
          .error (mkBadInstruction (.badInstruction cause keys) key)
        | .error e => .error e
        | .ok subGroup =>
          parseProblemTable
            (g.addSubsystem key (.group subGroup.subsystems subGroup.attrs))
            rest
    | v =>
      match om_eval_arg v with
      | .error e => .error (mkBadInstruction e key)
      | .ok pv => parseProblemTable (g.setAttr key pv) rest

/-- Model of `_build_model`: when the model table itself holds the `id`
key, the registry system is obtained from the identifier alone (no options
argument) and added as subsystem "system"; otherwise the table is parsed as
a group. A key-building error is re-raised wrapped with the key "model". -/
def build_model (model_definition : List (String × Toml)) :
    Except PyErr OMGroup :=
  let result : Except PyErr OMGroup :=
    match model_definition.lookup "id" with
    | some system_id =>
      .ok ((OMGroup.mk [] []).addSubsystem "system" (.system system_id none))
    | none => parseProblemTable ⟨[], []⟩ model_definition
  match result with
  | .error (.badInstruction cause keys) =>
    .error (mkBadInstruction (.badInstruction cause keys) "model")
  | r => r

/-! ## configuration.py: auto-scaling of constraints and design variables -/

/-- Model of Python dict assignment `d[k] = v`: replace in place when the
key exists, else add it. -/
def dictSet {α : Type} (d : List (String × α)) (k : String) (v : α) :
    List (String × α) :=
  if (d.lookup k).isSome then
    d.map (fun e => if e.1 = k then (k, v) else e)
  else d ++ [(k, v)]

/-- Body of the per-record loop of `_add_constraints`: under auto-scaling,
mirror `lower` into `ref0` and `upper` into `ref` before registering. -/
def scaleConstraintTable (autoScaling : Bool) (t : List (String × Toml)) :
    List (String × Toml) :=
  if autoScaling then
    let t1 := match t.lookup "lower" with
      | some v => dictSet t "ref0" v
      | none => t
    match t1.lookup "upper" with
    | some v => dictSet t1 "ref" v
    | none => t1
  else t

/-- Model of `_add_constraints`: the records passed to
`model.add_constraint`, in order. -/
def add_constraints (autoScaling : Bool)
    (constraintTables : List (List (String × Toml))) :
    List (List (String × Toml)) :=
  constraintTables.map (scaleConstraintTable autoScaling)

/-- Body of the per-record loop of `_add_design_vars` (the source
duplicates the mirroring logic of `_add_constraints`). -/
def scaleDesignVarTable (autoScaling : Bool) (t : List (String × Toml)) :
    List (String × Toml) :=
  if autoScaling then
    let t1 := match t.lookup "lower" with
      | some v => dictSet t "ref0" v
      | none => t
    match t1.lookup "upper" with
    | some v => dictSet t1 "ref" v
    | none => t1
  else t

/-- Model of `_add_design_vars`: the records passed to
`model.add_design_var`, in order. -/
def add_design_vars (autoScaling : Bool)
    (designVarTables : List (List (String × Toml))) :
    List (List (String × Toml)) :=
  designVarTables.map (scaleDesignVarTable autoScaling)

/-! ## variables.py: Variable

A Variable holds a name and a metadata dict. The base metadata schema is
obtained once from an OpenMDAO `IndepVarComp.add_output` call (its keyword
arguments and their defaults), then patched with `value = 1.0` and
`tags = set()`. Construction keeps from the caller's kwargs only the keys
already present in this base schema. -/

/-- A value stored in a Variable's metadata dict. -/
inductive MetaVal where
  | npv : NpValue → MetaVal
  | str : String → MetaVal
  | shape : List Nat → MetaVal
  | tags : List String → MetaVal
  | pyNone : MetaVal
deriving DecidableEq, Repr

/-- Model of np.shape: () for a scalar, (n,) for a length-n array. -/
def npShape : NpValue → List Nat
  | .scalar _ => []
  | .array l => [l.length]

/-- The base metadata obtained from `om.IndepVarComp().add_output(name="a")`
(the keyword arguments of add_output with their defaults), then patched
with `value = 1.0` and `tags = set()` as in Variable.__init__. -/
def baseMetadata : List (String × MetaVal) :=
  [("value", .npv (.scalar (.num 1))),
   ("shape", .pyNone),
   ("units", .pyNone),
   ("res_units", .pyNone),
   ("desc", .str ""),
   ("lower", .pyNone),
   ("upper", .pyNone),
   ("ref", .npv (.scalar (.num 1))),
   ("ref0", .npv (.scalar (.num 0))),
   ("res_ref", .npv (.scalar (.num 1))),
   ("tags", .tags [])]

/-- A constructed Variable: its name and its metadata dict. -/
structure Variable where
  name : String
  metadata : List (String × MetaVal)
deriving DecidableEq, Repr

/-- The shape computed by `_set_default_shape` from the current value:
np.shape of the value, with () replaced by (1,). (np.shape of a non-array
object such as None is also ().) -/
def defaultShapeOf (metadata : List (String × MetaVal)) : List Nat :=
  let s := match metadata.lookup "value" with
    | some (.npv v) => npShape v
    | _ => []
  if s.isEmpty then [1] else s

/-- Model of `_set_default_shape`: when the "shape" entry is None, set it
to the default shape computed from the current value. -/
def setDefaultShape (metadata : List (String × MetaVal)) :
    List (String × MetaVal) :=
  match metadata.lookup "shape" with
  | some .pyNone => dictSet metadata "shape" (.shape (defaultShapeOf metadata))
  | _ => metadata

/-- Python truthiness of `self.description` (the "desc" metadata entry),
for the value kinds that can sit there: None and "" are falsy. -/
def descIsFalsy : Option MetaVal → Bool
  | none => true
  | some .pyNone => true
  | some (.str s) => s.isEmpty
  | _ => false

/-- Model of Variable.__init__: metadata is a copy of the base metadata
updated with the kwargs entries whose keys already exist in it (all other
kwargs keys are silently dropped), then `_set_default_shape` runs; a falsy
description is filled from the variable-descriptions resource when the
name has an entry there. The parsed content of that resource file (which
is not under src/) is passed as `descs`. The constructor body contains no
raise statement and no name validation, so the embedding is always `.ok`;
the Except result type records that calling it can be observed to not
raise. -/
def variableInit (descs : List (String × String)) (name : String)
    (kwargs : List (String × MetaVal)) : Except PyErr Variable :=
  let metadata := baseMetadata.map (fun e =>
    (e.1, match kwargs.lookup e.1 with
          | some w => w
          | none => e.2))
  let metadata := setDefaultShape metadata
  let metadata :=
    if descIsFalsy (metadata.lookup "desc") then
      match descs.lookup name with
      | some d => dictSet metadata "desc" (.str d)
      | none => metadata
    else metadata
  .ok ⟨name, metadata⟩

/-- Model of the `value` property setter: store the new value, then call
`_set_default_shape`. -/
def Variable.setValue (v : Variable) (value : NpValue) : Variable :=
  { v with metadata := setDefaultShape (dictSet v.metadata "value" (.npv value)) }

/-! ## variables.py: Variable.__eq__ -/

/-- A Python object appearing as the right operand of `Variable.__eq__`:
a Variable, a non-Variable object that happens to expose a `metadata`
attribute, or an object without one. -/
inductive PyObject where
  | varObj : Variable → PyObject
  | duckObj (name : Option String) (metadata : List (String × MetaVal)) :
      PyObject
  | plainObj (tag : String) : PyObject

/-- Model of reading `other.metadata`: AttributeError (none) when the
object has no such attribute. -/
def PyObject.getattrMetadata : PyObject → Option (List (String × MetaVal))
  | .varObj v => some v.metadata
  | .duckObj _ m => some m
  | .plainObj _ => none

/-- Model of `isinstance(other, Variable)`. -/
def PyObject.isVariable : PyObject → Bool
  | .varObj _ => true
  | _ => false

/-- Elementwise `(x == y) | (np.isnan x & np.isnan y)` on two floats. -/
def floatEqNanAware (x y : PyFloat) : Bool :=
  match x, y with
  | .num p, .num q => p == q
  | .nan, .nan => true
  | _, _ => false

/-- `((a == b) | (np.isnan a & np.isnan b)).all()` on two numpy values:
scalars broadcast against arrays; arrays of different lengths compare
unequal. -/
def npValueEqNanAware : NpValue → NpValue → Bool
  | .scalar x, .scalar y => floatEqNanAware x y
  | .scalar x, .array l => l.all (floatEqNanAware x)
  | .array l, .scalar y => l.all (fun x => floatEqNanAware x y)
  | .array l, .array m =>
    l.length == m.length && (l.zip m).all (fun p => floatEqNanAware p.1 p.2)

/-- The NaN-aware value comparison after np.asarray on both popped "value"
entries; "value" entries are numeric in this subsystem, any non-numeric
content is compared by plain equality. -/
def asarrayEqNanAware : MetaVal → MetaVal → Bool
  | .npv a, .npv b => npValueEqNanAware a b
  | a, b => a == b

/-- Model of Variable.__eq__: copies both metadata dicts — reading
`other.metadata` happens here, before any isinstance check, so an operand
without that attribute raises AttributeError — then pops the "value"
entries (KeyError when absent), deletes the "tags" entries (KeyError when
absent), and finally requires other to be a Variable with equal name,
NaN-aware-equal value and equal remaining metadata. -/
def variableEq (self : Variable) (other : PyObject) : Except PyErr Bool :=
  match other.getattrMetadata with
  | none => .error (.attributeError "metadata")
  | some other_metadata0 =>
    let my_metadata0 := self.metadata
    match my_metadata0.lookup "value", other_metadata0.lookup "value" with
    | some my_value, some other_value =>
      let my_metadata1 := my_metadata0.eraseP (fun e => e.1 == "value")
      let other_metadata1 := other_metadata0.eraseP (fun e => e.1 == "value")
      if (my_metadata1.lookup "tags").isSome then
        if (other_metadata1.lookup "tags").isSome then
          let my_metadata := my_metadata1.eraseP (fun e => e.1 == "tags")
          let other_metadata := other_metadata1.eraseP (fun e => e.1 == "tags")
          .ok (other.isVariable
            && (match other with
                | .varObj ov => self.name == ov.name
                | _ => false)
            && asarrayEqNanAware my_value other_value
            && my_metadata == other_metadata)
        else .error (.keyError "tags")
      else .error (.keyError "tags")
    | _, _ => .error (.keyError "value")

/-! ## variables.py: VariableList -/

/-- Model of VariableList.names(). -/
def names (l : List Variable) : List String :=
  l.map Variable.name

/-- Model of VariableList.append: when the name is already present,
`self[self.names().index(var.name)] = var` replaces the entry in place,
else the Variable is appended. (The TypeError branch for non-Variable
arguments is unrepresentable in the typed embedding.) -/
def appendVar (l : List Variable) (v : Variable) : List Variable :=
  if v.name ∈ names l then l.set (List.indexOf v.name (names l)) v
  else l ++ [v]

/-- Model of VariableList.update: for each incoming variable, append (i.e.
replace-or-add) when add_variables is set or the name is already present. -/
def updateVars (l other_var_list : List Variable) (add_variables : Bool) :
    List Variable :=
  other_var_list.foldl
    (fun acc v =>
      if add_variables || v.name ∈ names acc then appendVar acc v else acc)
    l

/-- A VariableList mutation: one append call or one update call. -/
inductive VLOp where
  | append (v : Variable)
  | update (other_var_list : List Variable) (add_variables : Bool)

def applyVLOp (l : List Variable) : VLOp → List Variable
  | .append v => appendVar l v
  | .update other add => updateVars l other add

/-- Applies a finite sequence of append/update operations, starting from
the given list. -/
def applyVLOps (l : List Variable) (ops : List VLOp) : List Variable :=
  ops.foldl applyVLOp l

/-! ## Concrete inputs used by the claim theorems -/

/-- A setup problem with one promoted input name "x" backed by two absolute
inputs: comp1.x is connected to the output ivc.y, comp2.x is unconnected
with a NaN default; comp1.x has the concrete default 1.0. -/
def mixedConnModel : OMModel :=
  { setup_done := true
    prom2abs := [("x", ["comp1.x", "comp2.x"])]
    connexions := [("comp1.x", "ivc.y")]
    abs2meta_value := fun a =>
      if a = "comp2.x" then .scalar .nan else .scalar (.num 1) }

/-- A setup problem with a single unconnected input comp1.x whose declared
default is the array [NaN, 1.0] (one NaN element, one concrete element). -/
def mixedNaNModel : OMModel :=
  { setup_done := true
    prom2abs := [("x", ["comp1.x"])]
    connexions := []
    abs2meta_value := fun _ => .array [.nan, .num 1] }

/-- A setup problem with a single all-NaN-default unconnected input. -/
def allNaNModel : OMModel :=
  { setup_done := true
    prom2abs := [("x", ["comp1.x"])]
    connexions := []
    abs2meta_value := fun _ => .scalar .nan }

/-- The top-level model table {"id": "compute_x", "foo": 1}. -/
def topLevelLeafTable : List (String × Toml) :=
  [("id", .str "compute_x"), ("foo", .int 1)]

/-- The nested model table {"a": {"b": {"bad_attr": "1/0"}}}. -/
def badAttrTable : List (String × Toml) :=
  [("a", .table [("b", .table [("bad_attr", .str "1/0")])])]

/-- The design-variable record {"name": "x", "lower": 0, "upper": 10}. -/
def xRecord : List (String × Toml) :=
  [("name", .str "x"), ("lower", .int 0), ("upper", .int 10)]

/-- The metadata produced by constructing a Variable with a scalar value
and no other recognized kwargs: the base schema with shape defaulted to
(1,). -/
def scalarDefaultMetadata : List (String × MetaVal) :=
  [("value", .npv (.scalar (.num 1))),
   ("shape", .shape [1]),
   ("units", .pyNone),
   ("res_units", .pyNone),
   ("desc", .str ""),
   ("lower", .pyNone),
   ("upper", .pyNone),
   ("ref", .npv (.scalar (.num 1))),
   ("ref0", .npv (.scalar (.num 0))),
   ("res_ref", .npv (.scalar (.num 1))),
   ("tags", .tags [])]

/-- Two Variables sharing the name "a", with different units metadata. -/
def varA : Variable := ⟨"a", [("units", .pyNone), ("tags", .tags [])]⟩

def varA2 : Variable := ⟨"a", [("units", .str "m"), ("tags", .tags [])]⟩

def varB : Variable := ⟨"b", [("units", .pyNone), ("tags", .tags [])]⟩

/-- A sample sequence of VariableList mutations: append varA, update with
[varA2, varB] adding new names, then append varA2 (a duplicate name). -/
def sampleOps : List VLOp :=
  [.append varA, .update [varA2, varB] true, .append varA2]

/-! # Shared lemmas on association lists (Python dict model) -/

theorem lookup_append {α : Type} (d₁ d₂ : List (String × α)) (k : String) :
    (d₁ ++ d₂).lookup k = (d₁.lookup k).or (d₂.lookup k) := by
  induction d₁ with
  | nil => simp
  | cons e d ih =>
    obtain ⟨k₁, v₁⟩ := e
    by_cases h : k = k₁
    · have hb : (k == k₁) = true := beq_iff_eq.mpr h
      simp [List.lookup_cons, hb]
    · have hb : (k == k₁) = false := beq_eq_false_iff_ne.mpr h
      simp [List.lookup_cons, hb, ih]

theorem lookup_map_replace {α : Type} (d : List (String × α)) (k : String)
    (v : α) :
    (d.map (fun e => if e.1 = k then (k, v) else e)).lookup k
      = (d.lookup k).map (fun _ => v) := by
  induction d with
  | nil => simp
  | cons e d ih =>
    obtain ⟨k₁, v₁⟩ := e
    by_cases h : k₁ = k
    · subst h
      have hb : (k₁ == k₁) = true := beq_iff_eq.mpr rfl
      simp [List.lookup_cons, hb]
    · have hb : (k == k₁) = false := beq_eq_false_iff_ne.mpr (Ne.symm h)
      simp [List.lookup_cons, hb, h, ih]

theorem lookup_map_replace_ne {α : Type} (d : List (String × α))
    (k : String) (v : α) (k' : String) (h : k' ≠ k) :
    (d.map (fun e => if e.1 = k then (k, v) else e)).lookup k'
      = d.lookup k' := by
  induction d with
  | nil => simp
  | cons e d ih =>
    obtain ⟨k₁, v₁⟩ := e
    by_cases h1 : k₁ = k
    · subst h1
      have hb : (k' == k₁) = false := beq_eq_false_iff_ne.mpr h
      simp [List.lookup_cons, hb, ih]
    · by_cases h2 : k' = k₁
      · have hb2 : (k' == k₁) = true := beq_iff_eq.mpr h2
        simp [List.lookup_cons, h1, hb2]
      · have hb2 : (k' == k₁) = false := beq_eq_false_iff_ne.mpr h2
        simp [List.lookup_cons, h1, hb2, ih]

theorem lookup_dictSet_self {α : Type} (d : List (String × α)) (k : String)
    (v : α) : (dictSet d k v).lookup k = some v := by
  unfold dictSet
  by_cases h : (d.lookup k).isSome
  · rw [if_pos h, lookup_map_replace]
    obtain ⟨w, hw⟩ := Option.isSome_iff_exists.mp h
    simp [hw]
  · rw [if_neg h, lookup_append]
    rw [Option.not_isSome_iff_eq_none] at h
    have hb : (k == k) = true := beq_iff_eq.mpr rfl
    simp [h, List.lookup_cons, hb]

theorem lookup_dictSet_ne {α : Type} (d : List (String × α)) (k : String)
    (v : α) (k' : String) (h : k' ≠ k) :
    (dictSet d k v).lookup k' = d.lookup k' := by
  unfold dictSet
  by_cases hs : (d.lookup k).isSome
  · rw [if_pos hs, lookup_map_replace_ne _ _ _ _ h]
  · rw [if_neg hs, lookup_append]
    have hb : (k' == k) = false := beq_eq_false_iff_ne.mpr h
    simp [List.lookup_cons, hb]

theorem lookup_isSome_iff_mem_keys {α : Type} (d : List (String × α))
    (k : String) : (d.lookup k).isSome ↔ k ∈ d.map Prod.fst := by
  induction d with
  | nil => simp
  | cons e d ih =>
    obtain ⟨k₁, v₁⟩ := e
    by_cases h : k = k₁
    · have hb : (k == k₁) = true := beq_iff_eq.mpr h
      simp [List.lookup_cons, hb, h]
    · have hb : (k == k₁) = false := beq_eq_false_iff_ne.mpr h
      simp [List.lookup_cons, hb, h, ih]

theorem keys_dictSet_of_isSome {α : Type} (d : List (String × α))
    (k : String) (v : α) (h : (d.lookup k).isSome) :
    (dictSet d k v).map Prod.fst = d.map Prod.fst := by
  unfold dictSet
  rw [if_pos h, List.map_map]
  apply List.map_congr_left
  intro e _
  by_cases he : e.1 = k
  · simp [he]
  · simp [he]

/-! # Lemmas on the unconnected-input analysis -/

theorem classifyNames_cons (m : OMModel) (b : String) (ns : List String)
    (acc : List String × List String) :
    classifyNames m (b :: ns) acc =
      classifyNames m ns
        (if npAllIsNaN (m.abs2meta_value b) then (acc.1 ++ [b], acc.2)
         else (acc.1, acc.2 ++ [b])) := rfl

theorem mem_classifyNames_fst (m : OMModel) (ns : List String)
    (acc : List String × List String) (a : String) :
    a ∈ (classifyNames m ns acc).1 ↔
      a ∈ acc.1 ∨ (a ∈ ns ∧ npAllIsNaN (m.abs2meta_value a) = true) := by
  induction ns generalizing acc with
  | nil => simp [classifyNames]
  | cons b ns ih =>
    rw [classifyNames_cons, ih]
    by_cases hab : a = b
    · subst hab
      by_cases h : npAllIsNaN (m.abs2meta_value a) = true <;>
        simp [h]
    · by_cases h : npAllIsNaN (m.abs2meta_value b) = true <;>
        simp [h, hab]

theorem mem_classifyNames_snd (m : OMModel) (ns : List String)
    (acc : List String × List String) (a : String) :
    a ∈ (classifyNames m ns acc).2 ↔
      a ∈ acc.2 ∨ (a ∈ ns ∧ npAllIsNaN (m.abs2meta_value a) = false) := by
  induction ns generalizing acc with
  | nil => simp [classifyNames]
  | cons b ns ih =>
    rw [classifyNames_cons, ih]
    by_cases hab : a = b
    · subst hab
      by_cases h : npAllIsNaN (m.abs2meta_value a) = true <;>
        simp [h]
    · by_cases h : npAllIsNaN (m.abs2meta_value b) = true <;>
        simp [h, hab]

theorem mem_unconnected_foldl_fst (m : OMModel)
    (gs : List (String × List String)) (acc : List String × List String)
    (a : String) :
    a ∈ (gs.foldl
        (fun acc p =>
          let unconnected := p.2.filter (fun a => isUnconnected m a)
          if unconnected.isEmpty then acc else classifyNames m p.2 acc)
        acc).1 ↔
      a ∈ acc.1 ∨ ∃ p, p ∈ gs ∧
        ¬(p.2.filter (fun x => isUnconnected m x)).isEmpty = true ∧
        a ∈ p.2 ∧ npAllIsNaN (m.abs2meta_value a) = true := by
  induction gs generalizing acc with
  | nil => simp
  | cons g gs ih =>
    rw [List.foldl_cons]
    by_cases hg : (g.2.filter (fun x => isUnconnected m x)).isEmpty = true
    · simp only [hg, if_true]
      rw [ih]
      simp only [List.mem_cons]
      constructor
      · rintro (h | ⟨p, hp, hne, hmem, hnan⟩)
        · exact Or.inl h
        · exact Or.inr ⟨p, Or.inr hp, hne, hmem, hnan⟩
      · rintro (h | ⟨p, hp | hp, hne, hmem, hnan⟩)
        · exact Or.inl h
        · subst hp; exact absurd hg hne
        · exact Or.inr ⟨p, hp, hne, hmem, hnan⟩
    · simp only [hg, Bool.false_eq_true, if_false]
      rw [ih]
      rw [mem_classifyNames_fst]
      simp only [List.mem_cons]
      constructor
      · rintro ((h | ⟨hmem, hnan⟩) | ⟨p, hp, hne, hmem, hnan⟩)
        · exact Or.inl h
        · exact Or.inr ⟨g, Or.inl rfl, hg, hmem, hnan⟩
        · exact Or.inr ⟨p, Or.inr hp, hne, hmem, hnan⟩
      · rintro (h | ⟨p, hp | hp, hne, hmem, hnan⟩)
        · exact Or.inl (Or.inl h)
        · subst hp; exact Or.inl (Or.inr ⟨hmem, hnan⟩)
        · exact Or.inr ⟨p, hp, hne, hmem, hnan⟩

theorem mem_unconnected_foldl_snd (m : OMModel)
    (gs : List (String × List String)) (acc : List String × List String)
    (a : String) :
    a ∈ (gs.foldl
        (fun acc p =>
          let unconnected := p.2.filter (fun a => isUnconnected m a)
          if unconnected.isEmpty then acc else classifyNames m p.2 acc)
        acc).2 ↔
      a ∈ acc.2 ∨ ∃ p, p ∈ gs ∧
        ¬(p.2.filter (fun x => isUnconnected m x)).isEmpty = true ∧
        a ∈ p.2 ∧ npAllIsNaN (m.abs2meta_value a) = false := by
  induction gs generalizing acc with
  | nil => simp
  | cons g gs ih =>
    rw [List.foldl_cons]
    by_cases hg : (g.2.filter (fun x => isUnconnected m x)).isEmpty = true
    · simp only [hg, if_true]
      rw [ih]
      simp only [List.mem_cons]
      constructor
      · rintro (h | ⟨p, hp, hne, hmem, hnan⟩)
        · exact Or.inl h
        · exact Or.inr ⟨p, Or.inr hp, hne, hmem, hnan⟩
      · rintro (h | ⟨p, hp | hp, hne, hmem, hnan⟩)
        · exact Or.inl h
        · subst hp; exact absurd hg hne
        · exact Or.inr ⟨p, hp, hne, hmem, hnan⟩
    · simp only [hg, Bool.false_eq_true, if_false]
      rw [ih]
      rw [mem_classifyNames_snd]
      simp only [List.mem_cons]
      constructor
      · rintro ((h | ⟨hmem, hnan⟩) | ⟨p, hp, hne, hmem, hnan⟩)
        · exact Or.inl h
        · exact Or.inr ⟨g, Or.inl rfl, hg, hmem, hnan⟩
        · exact Or.inr ⟨p, Or.inr hp, hne, hmem, hnan⟩
      · rintro (h | ⟨p, hp | hp, hne, hmem, hnan⟩)
        · exact Or.inl (Or.inl h)
        · subst hp; exact Or.inl (Or.inr ⟨hmem, hnan⟩)
        · exact Or.inr ⟨p, hp, hne, hmem, hnan⟩

theorem mem_core_fst (m : OMModel) (a : String) :
    a ∈ (get_unconnected_inputs_core m).1 ↔
      ∃ p, p ∈ m.prom2abs ∧
        ¬(p.2.filter (fun x => isUnconnected m x)).isEmpty = true ∧
        a ∈ p.2 ∧ npAllIsNaN (m.abs2meta_value a) = true := by
  unfold get_unconnected_inputs_core
  rw [mem_unconnected_foldl_fst]
  simp

theorem mem_core_snd (m : OMModel) (a : String) :
    a ∈ (get_unconnected_inputs_core m).2 ↔
      ∃ p, p ∈ m.prom2abs ∧
        ¬(p.2.filter (fun x => isUnconnected m x)).isEmpty = true ∧
        a ∈ p.2 ∧ npAllIsNaN (m.abs2meta_value a) = false := by
  unfold get_unconnected_inputs_core
  rw [mem_unconnected_foldl_snd]
  simp

/-! # Claim theorems -/

/-- Claim C1: refuted by evaluation. On mixedConnModel — one promoted input
"x" backed by comp1.x (connected to the output ivc.y) and comp2.x
(unconnected, NaN default) — get_unconnected_inputs returns
(["comp2.x"], ["comp1.x"]): the CONNECTED port comp1.x lands in the
optional-unconnected list, because the inner loop iterates over all
absolute names of any promoted group with at least one unconnected member
(`for abs_name in abs_names` where `for abs_name in unconnected` was
intended), so the claimed partition fails. -/
theorem connected_input_misclassified_by_get_unconnected_inputs :
    get_unconnected_inputs mixedConnModel = .ok (["comp2.x"], ["comp1.x"])
      ∧ isUnconnected mixedConnModel "comp1.x" = false := by
  exact ⟨by decide, by decide⟩

/-- Claim C2 counterexample: the unconnected input comp1.x of mixedNaNModel
has declared default [NaN, 1.0] — an array with a NaN element and a
concrete element — yet get_unconnected_inputs classifies it as OPTIONAL,
not mandatory as the claim states: the source tests
np.all(np.isnan(value)), not an any-NaN test. -/
theorem mixed_nan_default_classified_optional :
    get_unconnected_inputs mixedNaNModel = .ok ([], ["comp1.x"])
      ∧ [PyFloat.nan, PyFloat.num 1].any PyFloat.isNaN = true
      ∧ mixedNaNModel.abs2meta_value "comp1.x"
          = .array [PyFloat.nan, PyFloat.num 1] := by
  exact ⟨by decide, by decide, by decide⟩

/-- Claim C2 (amended): every unconnected input port of a setup problem is
classified as mandatory iff EVERY element of its declared default is NaN
(np.all of the elementwise isnan test), and as optional iff some element is
not NaN; in particular a port whose default mixes NaN and concrete numbers
is classified optional. -/
theorem unconnected_input_mandatory_iff_all_nan (m : OMModel) (p : String)
    (absNames : List String) (a : String)
    (hsetup : m.setup_done = true)
    (hmem : (p, absNames) ∈ m.prom2abs)
    (ha : a ∈ absNames)
    (hunc : isUnconnected m a = true) :
    get_unconnected_inputs m = .ok (get_unconnected_inputs_core m)
      ∧ (a ∈ (get_unconnected_inputs_core m).1
          ↔ npAllIsNaN (m.abs2meta_value a) = true)
      ∧ (a ∈ (get_unconnected_inputs_core m).2
          ↔ npAllIsNaN (m.abs2meta_value a) = false) := by
  have hfilter : ¬(absNames.filter (fun x => isUnconnected m x)).isEmpty = true := by
    intro hemp
    have hmf : a ∈ absNames.filter (fun x => isUnconnected m x) :=
      List.mem_filter.mpr ⟨ha, hunc⟩
    rw [List.isEmpty_iff] at hemp
    rw [hemp] at hmf
    exact absurd hmf (List.not_mem_nil a)
  refine ⟨by simp [get_unconnected_inputs, hsetup], ?_, ?_⟩
  · rw [mem_core_fst]
    constructor
    · rintro ⟨q, _, _, _, hnan⟩
      exact hnan
    · intro hnan
      exact ⟨(p, absNames), hmem, hfilter, ha, hnan⟩
  · rw [mem_core_snd]
    constructor
    · rintro ⟨q, _, _, _, hnan⟩
      exact hnan
    · intro hnan
      exact ⟨(p, absNames), hmem, hfilter, ha, hnan⟩

/-- Witness for the amended Claim C2, at the concrete problem allNaNModel
(one unconnected input comp1.x with scalar NaN default). -/
theorem unconnected_input_mandatory_iff_all_nan_witness :
    get_unconnected_inputs allNaNModel
        = .ok (get_unconnected_inputs_core allNaNModel)
      ∧ ("comp1.x" ∈ (get_unconnected_inputs_core allNaNModel).1
          ↔ npAllIsNaN (allNaNModel.abs2meta_value "comp1.x") = true)
      ∧ ("comp1.x" ∈ (get_unconnected_inputs_core allNaNModel).2
          ↔ npAllIsNaN (allNaNModel.abs2meta_value "comp1.x") = false) :=
  unconnected_input_mandatory_iff_all_nan allNaNModel "x" ["comp1.x"]
    "comp1.x" (by decide) (by decide) (by decide) (by decide)

/-- Claim C3 counterexample: at the top level, the model table
{"id": "compute_x", "foo": 1} is assembled by calling the registry with the
identifier ALONE — the remaining key foo is not passed as a construction
option (get_system(system_id) at configuration.py line 219 takes no options
argument), contradicting the claim for the top-level model node. -/
theorem top_level_leaf_options_not_passed :
    build_model topLevelLeafTable
        = .ok (OMGroup.mk [("system", .system (.str "compute_x") none)] [])
      ∧ build_model topLevelLeafTable
        ≠ .ok (OMGroup.mk
            [("system", .system (.str "compute_x")
              (some [("foo", .int 1)]))] []) := by
  have h1 : build_model topLevelLeafTable
      = .ok (OMGroup.mk [("system", .system (.str "compute_x") none)] []) := rfl
  refine ⟨h1, fun h => ?_⟩
  rw [h1] at h
  simp at h

/-- Claim C3 (amended): a model-table node containing the reserved leaf
marker "id" is always turned into a single registry leaf and its remaining
keys are never recursed into as sub-structure; for NESTED nodes the
remaining keys (the table with "id" popped) are passed to the registry as
construction options, while for the TOP-LEVEL model node the registry is
called with the identifier alone and the remaining keys are not passed. -/
theorem leaf_marker_never_recursed :
    (∀ (t : List (String × Toml)) (idv : Toml),
        t.lookup "id" = some idv →
        build_model t = .ok (OMGroup.mk [("system", .system idv none)] []))
      ∧ (∀ (g : OMGroup) (key : String) (sub rest : List (String × Toml))
            (idv : Toml),
          sub.lookup "id" = some idv →
          parseProblemTable g ((key, .table sub) :: rest)
            = parseProblemTable
                (g.addSubsystem key
                  (.system idv (some (sub.eraseP (fun e => e.1 == "id")))))
                rest) := by
  constructor
  · intro t idv h
    simp [build_model, h, OMGroup.addSubsystem]
  · intro g key sub rest idv h
    rw [parseProblemTable, h]

/-- Witness for the amended Claim C3, at the concrete tables
{"id": "compute_x", "foo": 1} (top level) and
{"comp": {"id": "compute_y", "foo": 1}} (nested). -/
theorem leaf_marker_never_recursed_witness :
    build_model topLevelLeafTable
        = .ok (OMGroup.mk [("system", .system (.str "compute_x") none)] [])
      ∧ parseProblemTable ⟨[], []⟩
          [("comp", .table [("id", .str "compute_y"), ("foo", .int 1)])]
        = parseProblemTable
            ((OMGroup.mk [] []).addSubsystem "comp"
              (.system (.str "compute_y")
                (some ([("id", .str "compute_y"), ("foo", .int 1)].eraseP
                  (fun e => e.1 == "id")))))
            [] :=
  ⟨leaf_marker_never_recursed.1 topLevelLeafTable (.str "compute_x") rfl,
   leaf_marker_never_recursed.2 ⟨[], []⟩ "comp"
     [("id", .str "compute_y"), ("foo", .int 1)] [] (.str "compute_y") rfl⟩

/-- Claim C4: assembling the nested model table
{"a": {"b": {"bad_attr": "1/0"}}} fails with a bad-instruction error whose
accumulated key path is, outermost first, model, a, b, bad_attr, and whose
innermost cause is the original ZeroDivisionError. -/
theorem bad_attr_error_path_accumulates :
    build_model badAttrTable
      = .error (.badInstruction .zeroDivisionError
          ["model", "a", "b", "bad_attr"]) := by
  have h1 : om_eval_arg (.str "1/0") = .error .zeroDivisionError := by decide
  simp [build_model, badAttrTable, parseProblemTable, h1, mkBadInstruction,
    List.lookup]

/-- Claim C5: a string containing the substring "__" makes _om_eval raise
ValueError without evaluating; any other string is evaluated in an
environment with no builtins and only the name "om" bound; and evaluating
"1.0" returns 1.0. -/
theorem om_eval_restricted :
    (∀ s : String, hasSubstring "__".toList s.toList = true →
        om_eval s = .error (.valueError
          "No double underscore allowed in evaluated string for security reasons"))
      ∧ (∀ s : String, hasSubstring "__".toList s.toList = false →
          om_eval s = pyEval s [("om".toList, .omModule)])
      ∧ om_eval "1.0" = .ok (.num 1) := by
  refine ⟨?_, ?_, by decide⟩
  · intro s h
    unfold om_eval
    rw [if_pos h]
  · intro s h
    unfold om_eval
    rw [if_neg (by
      intro hc
      have h2 : hasSubstring ['_', '_'] s.data = false := h
      simp [h2] at hc)]

/-- Witness for Claim C5 at the concrete strings "__import__('os')"
(rejected), "om" (evaluated in the om-only environment) and "1.0". -/
theorem om_eval_restricted_witness :
    om_eval "__import__('os')" = .error (.valueError
        "No double underscore allowed in evaluated string for security reasons")
      ∧ om_eval "om" = pyEval "om" [("om".toList, .omModule)]
      ∧ om_eval "1.0" = .ok (.num 1) :=
  ⟨om_eval_restricted.1 "__import__('os')" (by decide),
   om_eval_restricted.2.1 "om" (by decide),
   om_eval_restricted.2.2⟩

/-- Claim C9: with auto_scaling, registering the design-variable record
{"name": "x", "lower": 0, "upper": 10} yields ref0 = 0 and ref = 10;
without auto_scaling every record is registered unchanged (no ref/ref0
injected); and the same lower-to-ref0 / upper-to-ref mirroring is applied
independently by the constraint-registration path. -/
theorem auto_scaling_mirrors_bounds :
    add_design_vars true [xRecord]
        = [[("name", .str "x"), ("lower", .int 0), ("upper", .int 10),
            ("ref0", .int 0), ("ref", .int 10)]]
      ∧ (∀ ts, add_design_vars false ts = ts)
      ∧ add_constraints true [xRecord]
        = [[("name", .str "x"), ("lower", .int 0), ("upper", .int 10),
            ("ref0", .int 0), ("ref", .int 10)]]
      ∧ (∀ ts, add_constraints false ts = ts) := by
  refine ⟨rfl, ?_, rfl, ?_⟩
  · intro ts
    rw [add_design_vars,
      show scaleDesignVarTable false = id from funext (fun t => rfl)]
    exact List.map_id ts
  · intro ts
    rw [add_constraints,
      show scaleConstraintTable false = id from funext (fun t => rfl)]
    exact List.map_id ts

/-! # Lemmas on Variable metadata handling -/

theorem lookup_map_valueUpdate {α : Type} (d : List (String × α))
    (g : String → α → α) (k : String) :
    (d.map (fun e => (e.1, g e.1 e.2))).lookup k = (d.lookup k).map (g k) := by
  induction d with
  | nil => simp
  | cons e d ih =>
    obtain ⟨k₁, v₁⟩ := e
    by_cases h : k = k₁
    · subst h
      have hb : (k == k) = true := beq_iff_eq.mpr rfl
      simp [List.lookup_cons, hb]
    · have hb : (k == k₁) = false := beq_eq_false_iff_ne.mpr h
      simp [List.lookup_cons, hb, ih]

theorem keys_map_valueUpdate {α : Type} (d : List (String × α))
    (g : String → α → α) :
    (d.map (fun e => (e.1, g e.1 e.2))).map Prod.fst = d.map Prod.fst := by
  rw [List.map_map]
  rfl

theorem setDefaultShape_lookup_shape_of_pyNone
    (metadata : List (String × MetaVal))
    (h : metadata.lookup "shape" = some .pyNone) :
    (setDefaultShape metadata).lookup "shape"
      = some (.shape (defaultShapeOf metadata)) := by
  unfold setDefaultShape
  rw [h]
  exact lookup_dictSet_self _ _ _

theorem setDefaultShape_of_not_pyNone (metadata : List (String × MetaVal))
    (sh : MetaVal) (h : metadata.lookup "shape" = some sh)
    (hne : sh ≠ .pyNone) :
    setDefaultShape metadata = metadata := by
  unfold setDefaultShape
  rw [h]
  cases sh with
  | pyNone => exact absurd rfl hne
  | npv v => rfl
  | str s => rfl
  | shape l => rfl
  | tags t => rfl

theorem setDefaultShape_lookup_ne (metadata : List (String × MetaVal))
    (k : String) (hk : k ≠ "shape") :
    (setDefaultShape metadata).lookup k = metadata.lookup k := by
  unfold setDefaultShape
  cases hsh : metadata.lookup "shape" with
  | none => rfl
  | some sh =>
    cases sh with
    | pyNone => exact lookup_dictSet_ne _ _ _ _ hk
    | npv v => rfl
    | str s => rfl
    | shape l => rfl
    | tags t => rfl

theorem keys_setDefaultShape (metadata : List (String × MetaVal)) :
    (setDefaultShape metadata).map Prod.fst = metadata.map Prod.fst := by
  unfold setDefaultShape
  cases hsh : metadata.lookup "shape" with
  | none => rfl
  | some sh =>
    cases sh with
    | pyNone =>
      exact keys_dictSet_of_isSome _ _ _ (by rw [hsh]; rfl)
    | npv v => rfl
    | str s => rfl
    | shape l => rfl
    | tags t => rfl

theorem descFill_lookup_ne (descs : List (String × String)) (name : String)
    (md : List (String × MetaVal)) (k : String) (hk : k ≠ "desc") :
    (if descIsFalsy (md.lookup "desc") then
        match descs.lookup name with
        | some d => dictSet md "desc" (.str d)
        | none => md
      else md).lookup k = md.lookup k := by
  split
  · cases descs.lookup name with
    | none => rfl
    | some d => exact lookup_dictSet_ne _ _ _ _ hk
  · rfl

theorem keys_descFill (descs : List (String × String)) (name : String)
    (md : List (String × MetaVal)) (hdesc : "desc" ∈ md.map Prod.fst) :
    (if descIsFalsy (md.lookup "desc") then
        match descs.lookup name with
        | some d => dictSet md "desc" (.str d)
        | none => md
      else md).map Prod.fst = md.map Prod.fst := by
  split
  · cases descs.lookup name with
    | none => rfl
    | some d =>
      exact keys_dictSet_of_isSome _ _ _
        ((lookup_isSome_iff_mem_keys _ _).mpr hdesc)
  · rfl

theorem setValue_shape_unchanged (v : Variable) (val : NpValue)
    (sh : MetaVal) (h : v.metadata.lookup "shape" = some sh)
    (hne : sh ≠ .pyNone) :
    (v.setValue val).metadata.lookup "shape" = some sh := by
  unfold Variable.setValue
  have h2 : (dictSet v.metadata "value" (.npv val)).lookup "shape" = some sh := by
    rw [lookup_dictSet_ne _ _ _ _ (by decide)]
    exact h
  rw [setDefaultShape_of_not_pyNone _ sh h2 hne]
  exact h2

theorem setValue_shape_recomputed_when_unset (v : Variable) (val : NpValue)
    (h : v.metadata.lookup "shape" = some .pyNone) :
    (v.setValue val).metadata.lookup "shape"
      = some (.shape (if (npShape val).isEmpty then [1] else npShape val)) := by
  unfold Variable.setValue
  have h2 : (dictSet v.metadata "value" (.npv val)).lookup "shape"
      = some .pyNone := by
    rw [lookup_dictSet_ne _ _ _ _ (by decide)]
    exact h
  rw [setDefaultShape_lookup_shape_of_pyNone _ h2]
  unfold defaultShapeOf
  rw [lookup_dictSet_self]

theorem variableInit_lookup_shape (descs : List (String × String))
    (name : String) (kwargs : List (String × MetaVal)) (val : NpValue)
    (hsh : kwargs.lookup "shape" = none)
    (hval : kwargs.lookup "value" = some (.npv val)) :
    (variableInit descs name kwargs).map (fun v => v.metadata.lookup "shape")
      = .ok (some (.shape (if (npShape val).isEmpty then [1]
          else npShape val))) := by
  unfold variableInit
  have h0 : (baseMetadata.map (fun e =>
      (e.1, match kwargs.lookup e.1 with
            | some w => w
            | none => e.2))).lookup "shape" = some .pyNone := by
    rw [lookup_map_valueUpdate baseMetadata
      (fun key v => match kwargs.lookup key with | some w => w | none => v)
      "shape"]
    have hb : baseMetadata.lookup "shape" = some .pyNone := rfl
    rw [hb]
    simp [hsh]
  have h1 : (baseMetadata.map (fun e =>
      (e.1, match kwargs.lookup e.1 with
            | some w => w
            | none => e.2))).lookup "value" = some (.npv val) := by
    rw [lookup_map_valueUpdate baseMetadata
      (fun key v => match kwargs.lookup key with | some w => w | none => v)
      "value"]
    have hb : baseMetadata.lookup "value" = some (.npv (.scalar (.num 1))) := rfl
    rw [hb]
    simp [hval]
  simp only [Except.map]
  rw [descFill_lookup_ne _ _ _ _ (by decide)]
  rw [setDefaultShape_lookup_shape_of_pyNone _ h0]
  unfold defaultShapeOf
  rw [h1]

/-- Claim C6 counterexample: a Variable constructed with a scalar value
gets shape (1,), but after reassigning its value to the length-3 array
[1, 2, 3] the stored shape is STILL (1,), not (3,): `_set_default_shape`
only acts while the "shape" entry is None, so shape is never recomputed
once set. -/
theorem shape_not_recomputed_on_reassignment :
    (variableInit [] "x" [("value", .npv (.scalar (.num 1)))]).map
        (fun v => (v.setValue
            (.array [.num 1, .num 2, .num 3])).metadata.lookup "shape")
      = .ok (some (.shape [1]))
      ∧ npShape (.array [.num 1, .num 2, .num 3]) = [3] := by
  exact ⟨by decide, by decide⟩

/-- Claim C6 (amended): at construction (when no shape kwarg is given) the
shape metadata defaults to (1,) for a scalar value and to the numpy-style
shape of the value otherwise; on a reassignment of the value property the
shape is recomputed by the same rule ONLY when the stored shape is still
unset (None); once set, reassigning the value leaves the stored shape
unchanged. -/
theorem variable_shape_defaulting :
    (∀ (descs : List (String × String)) (name : String)
        (kwargs : List (String × MetaVal)) (val : NpValue),
        kwargs.lookup "shape" = none →
        kwargs.lookup "value" = some (.npv val) →
        (variableInit descs name kwargs).map
            (fun v => v.metadata.lookup "shape")
          = .ok (some (.shape (if (npShape val).isEmpty then [1]
              else npShape val))))
      ∧ (∀ (v : Variable) (val : NpValue) (sh : MetaVal),
          v.metadata.lookup "shape" = some sh → sh ≠ .pyNone →
          (v.setValue val).metadata.lookup "shape" = some sh)
      ∧ (∀ (v : Variable) (val : NpValue),
          v.metadata.lookup "shape" = some .pyNone →
          (v.setValue val).metadata.lookup "shape"
            = some (.shape (if (npShape val).isEmpty then [1]
                else npShape val))) :=
  ⟨variableInit_lookup_shape, setValue_shape_unchanged,
   setValue_shape_recomputed_when_unset⟩

/-- Witness for the amended Claim C6: a Variable built with the array value
[1, 2] gets shape (2,); reassigning a 3-element array to a Variable whose
shape is set to (2,) leaves it (2,); reassigning on an unset shape
recomputes it. -/
theorem variable_shape_defaulting_witness :
    (variableInit [] "x" [("value", .npv (.array [.num 1, .num 2]))]).map
        (fun v => v.metadata.lookup "shape")
      = .ok (some (.shape (if (npShape (.array [.num 1, .num 2])).isEmpty
            then [1] else npShape (.array [.num 1, .num 2]))))
      ∧ ((⟨"x", [("value", .npv (.scalar (.num 1))), ("shape", .shape [2]),
            ("tags", .tags [])]⟩ : Variable).setValue
          (.array [.num 1, .num 2, .num 3])).metadata.lookup "shape"
          = some (.shape [2])
      ∧ ((⟨"x", [("value", .npv (.scalar (.num 1))), ("shape", .pyNone),
            ("tags", .tags [])]⟩ : Variable).setValue
          (.array [.num 1, .num 2, .num 3])).metadata.lookup "shape"
          = some (.shape (if (npShape
              (.array [.num 1, .num 2, .num 3])).isEmpty then [1]
              else npShape (.array [.num 1, .num 2, .num 3]))) :=
  ⟨variable_shape_defaulting.1 [] "x"
      [("value", .npv (.array [.num 1, .num 2]))] (.array [.num 1, .num 2])
      rfl rfl,
   variable_shape_defaulting.2.1 _ (.array [.num 1, .num 2, .num 3])
      (.shape [2]) rfl (by decide),
   variable_shape_defaulting.2.2 _ (.array [.num 1, .num 2, .num 3]) rfl⟩

/-- Claim C7 counterexample: constructing a Variable with the EMPTY name
succeeds (the constructor contains no name validation and no raise, so no
ValueError occurs); the unrecognized key bogus_key is silently dropped. -/
theorem empty_name_variable_constructs :
    variableInit [] "" [("bogus_key", .str "junk")]
      = .ok ⟨"", scalarDefaultMetadata⟩ := by
  decide

/-- Claim C7 (amended): Variable construction never fails — in particular
an empty or null name is accepted without ValueError — and any
unrecognized metadata keys are silently dropped: the resulting metadata
always carries exactly the keys of the fixed base schema, and the
resulting name is the one passed. -/
theorem variable_init_permissive (descs : List (String × String))
    (name : String) (kwargs : List (String × MetaVal)) :
    (variableInit descs name kwargs).map
        (fun v => (v.name, v.metadata.map Prod.fst))
      = .ok (name, baseMetadata.map Prod.fst) := by
  unfold variableInit
  simp only [Except.map]
  have k0 : (baseMetadata.map (fun e =>
      (e.1, match kwargs.lookup e.1 with
            | some w => w
            | none => e.2))).map Prod.fst = baseMetadata.map Prod.fst :=
    keys_map_valueUpdate baseMetadata
      (fun key v => match kwargs.lookup key with | some w => w | none => v)
  have k1 := keys_setDefaultShape (baseMetadata.map (fun e =>
      (e.1, match kwargs.lookup e.1 with
            | some w => w
            | none => e.2)))
  have k2 := keys_descFill descs name (setDefaultShape
      (baseMetadata.map (fun e =>
        (e.1, match kwargs.lookup e.1 with
              | some w => w
              | none => e.2))))
      (by rw [k1, k0]; decide)
  rw [k2, k1, k0]

/-! # Lemmas on VariableList -/

theorem names_set_indexOf (l : List Variable) (v : Variable)
    (h : v.name ∈ names l) :
    names (l.set (List.indexOf v.name (names l)) v) = names l := by
  induction l with
  | nil => exact absurd h (List.not_mem_nil _)
  | cons x t ih =>
    by_cases hx : x.name = v.name
    · have hidx : List.indexOf v.name (names (x :: t)) = 0 := by
        simp [names, List.indexOf_cons, hx]
      rw [hidx]
      simp [names, hx]
    · have hmem : v.name ∈ names t := by
        rcases List.mem_cons.mp h with h1 | h1
        · exact absurd h1.symm hx
        · exact h1
      have hidx : List.indexOf v.name (names (x :: t))
          = List.indexOf v.name (names t) + 1 := by
        simp [names, List.indexOf_cons, hx]
      rw [hidx]
      have hset : (x :: t).set (List.indexOf v.name (names t) + 1) v
          = x :: t.set (List.indexOf v.name (names t)) v := rfl
      rw [hset]
      show x.name :: names (t.set (List.indexOf v.name (names t)) v)
          = x.name :: names t
      rw [ih hmem]

theorem get?_set_indexOf (l : List Variable) (v : Variable)
    (h : v.name ∈ names l) :
    (l.set (List.indexOf v.name (names l)) v).get?
        (List.indexOf v.name (names l)) = some v := by
  induction l with
  | nil => exact absurd h (List.not_mem_nil _)
  | cons x t ih =>
    by_cases hx : x.name = v.name
    · have hidx : List.indexOf v.name (names (x :: t)) = 0 := by
        simp [names, List.indexOf_cons, hx]
      rw [hidx]
      rfl
    · have hmem : v.name ∈ names t := by
        rcases List.mem_cons.mp h with h1 | h1
        · exact absurd h1.symm hx
        · exact h1
      have hidx : List.indexOf v.name (names (x :: t))
          = List.indexOf v.name (names t) + 1 := by
        simp [names, List.indexOf_cons, hx]
      rw [hidx]
      have hset : (x :: t).set (List.indexOf v.name (names t) + 1) v
          = x :: t.set (List.indexOf v.name (names t)) v := rfl
      rw [hset]
      show (t.set (List.indexOf v.name (names t)) v).get?
          (List.indexOf v.name (names t)) = some v
      exact ih hmem

theorem names_appendVar_of_mem (l : List Variable) (v : Variable)
    (h : v.name ∈ names l) : names (appendVar l v) = names l := by
  unfold appendVar
  rw [if_pos h]
  exact names_set_indexOf l v h

theorem names_appendVar_of_not_mem (l : List Variable) (v : Variable)
    (h : ¬ v.name ∈ names l) :
    names (appendVar l v) = names l ++ [v.name] := by
  unfold appendVar
  rw [if_neg h]
  simp [names]

theorem nodup_names_appendVar (l : List Variable) (v : Variable)
    (h : (names l).Nodup) : (names (appendVar l v)).Nodup := by
  by_cases hm : v.name ∈ names l
  · rw [names_appendVar_of_mem l v hm]
    exact h
  · rw [names_appendVar_of_not_mem l v hm]
    simp [List.nodup_append, h, hm]

theorem nodup_names_updateVars (l other : List Variable)
    (add_variables : Bool) (h : (names l).Nodup) :
    (names (updateVars l other add_variables)).Nodup := by
  induction other generalizing l with
  | nil => exact h
  | cons v t ih =>
    show (names (updateVars
      (if add_variables || v.name ∈ names l then appendVar l v else l)
      t add_variables)).Nodup
    apply ih
    split
    · exact nodup_names_appendVar l v h
    · exact h

theorem nodup_names_applyVLOps (l : List Variable) (ops : List VLOp)
    (h : (names l).Nodup) : (names (applyVLOps l ops)).Nodup := by
  induction ops generalizing l with
  | nil => exact h
  | cons op t ih =>
    show (names (applyVLOps (applyVLOp l op) t)).Nodup
    apply ih
    cases op with
    | append v => exact nodup_names_appendVar l v h
    | update other add => exact nodup_names_updateVars l other add h

/-- Claim C8: every finite sequence of append/update operations applied to
an (initially empty) VariableList yields pairwise-distinct names, with
names() length equal to the list length; and appending a Variable whose
name already exists replaces the entry at the original index of that name,
leaving the name sequence (hence the position) and the length unchanged. -/
theorem variable_list_names_unique :
    (∀ (ops : List VLOp),
        (names (applyVLOps [] ops)).Nodup
          ∧ (names (applyVLOps [] ops)).length = (applyVLOps [] ops).length)
      ∧ (∀ (l : List Variable) (v : Variable), v.name ∈ names l →
          names (appendVar l v) = names l
            ∧ (appendVar l v).length = l.length
            ∧ (appendVar l v).get? (List.indexOf v.name (names l))
                = some v) := by
  constructor
  · intro ops
    refine ⟨nodup_names_applyVLOps [] ops (by simp [names]), ?_⟩
    simp [names]
  · intro l v h
    refine ⟨names_appendVar_of_mem l v h, ?_, ?_⟩
    · unfold appendVar
      rw [if_pos h]
      exact List.length_set l (List.indexOf v.name (names l)) v
    · unfold appendVar
      rw [if_pos h]
      exact get?_set_indexOf l v h

/-- Witness for Claim C8: the sample operation sequence (append varA,
update with [varA2, varB] adding, append the duplicate-named varA2) keeps
names unique, and appending varA2 to [varA, varB] replaces position 0. -/
theorem variable_list_names_unique_witness :
    ((names (applyVLOps [] sampleOps)).Nodup
        ∧ (names (applyVLOps [] sampleOps)).length
            = (applyVLOps [] sampleOps).length)
      ∧ (names (appendVar [varA, varB] varA2) = names [varA, varB]
          ∧ (appendVar [varA, varB] varA2).length = [varA, varB].length
          ∧ (appendVar [varA, varB] varA2).get?
              (List.indexOf varA2.name (names [varA, varB])) = some varA2) :=
  ⟨variable_list_names_unique.1 sampleOps,
   variable_list_names_unique.2 [varA, varB] varA2 (by decide)⟩

/-- Claim C10: Variable.__eq__ copies the other operand's metadata
attribute (line 148) before the isinstance test (line 157), so comparing a
Variable with any object that is not a Variable and has no metadata
attribute raises AttributeError instead of returning False. -/
theorem variable_eq_raises_attribute_error (v : Variable) (x : PyObject)
    (_hnv : x.isVariable = false) (h : x.getattrMetadata = none) :
    variableEq v x = .error (.attributeError "metadata") := by
  unfold variableEq
  rw [h]

/-- Witness for Claim C10 at a concrete Variable and the non-Variable
operand plainObj "0". -/
theorem variable_eq_raises_attribute_error_witness :
    variableEq ⟨"x", scalarDefaultMetadata⟩ (.plainObj "0")
      = .error (.attributeError "metadata") :=
  variable_eq_raises_attribute_error ⟨"x", scalarDefaultMetadata⟩
    (.plainObj "0") rfl rfl

end FastOad
